import Mathlib

/-!
# configuse/go-client: the refresh loop and its cache

A shallow embedding of `src/main.go`.  The package-level variables
(`configurationDtoList`, `interval`, `IsInitialized`) and the locals of
`loadConfigurationsFromService` (`f`, `init`, `counter`, the receiver copy `s`)
are the fields of `LoaderState`.  One pass through the body of the `for` loop is
`iteration`; what the network answers in that pass is its `FetchEnv` argument.
Effects that leave the process (sleeping, logging, channel operations,
`log.Fatal`) are recorded, in program order, in `LoaderState.trace`.
-/

namespace GoClient

/-! ## Data model -/

/-- The `time.Duration` type: a count of nanoseconds. -/
abbrev Duration := Int

/-- The constant `time.Millisecond`. -/
def Millisecond : Duration := 1000000

/-- The constant `time.Second`. -/
def Second : Duration := 1000000000

/-- The constant `BaseUrl`. -/
def BaseUrl : String := "https://configuse.tech/api"

/-- The struct `Settings`. -/
structure Settings where
  url : String
  ProjectKey : String
  RefreshIntervalTime : Duration
  FirstTimeLoadRetryCount : Int
deriving DecidableEq, Repr

/-- The struct `configuration`: one pair of the decoded response. -/
structure configuration where
  Key : String
  Value : String
deriving DecidableEq, Repr

/-- The struct `ConfigurationDto`: one cached entry. -/
structure ConfigurationDto where
  key : String
  value : String
deriving DecidableEq, Repr

/-- The zero value of `ConfigurationDto`, which a Go map lookup yields for a
missing key. -/
def ConfigurationDto.zero : ConfigurationDto := ⟨"", ""⟩

/-- A Go `map[string]ConfigurationDto`: a key is either absent or bound to one
entry. -/
abbrev Cache := String → Option ConfigurationDto

/-- The result of `make(map[string]ConfigurationDto)`. -/
def Cache.empty : Cache := fun _ => none

/-- The assignment `m[k] = d`. -/
def Cache.set (m : Cache) (k : String) (d : ConfigurationDto) : Cache :=
  fun k' => if k' = k then some d else m k'

/-- The function `Get`: `configurationDtoList[configurationKey]`. -/
def Get (configurationDtoList : Cache) (configurationKey : String) : ConfigurationDto :=
  match configurationDtoList configurationKey with
  | some d => d
  | none => ConfigurationDto.zero

/-- The variable `defaultRequestDelayInSecond`, `time.Second * 5`. -/
def defaultRequestDelayInSecond : Duration := Second * 5

/-! ## Channels -/

/-- A buffered Go channel of `bool`: the queued values and whether it is closed. -/
structure Chan where
  buf : List Bool
  closed : Bool
deriving DecidableEq, Repr

/-- What a send does to the sending goroutine. -/
inductive SendResult where
  | ok (c : Chan)
  | blocked
  | panic
deriving DecidableEq, Repr

/-- The statement `c <- v` on a channel of capacity `cap`, with no receiver
waiting: panics on a closed channel, blocks on a full buffer. -/
def Chan.send (cap : Nat) (c : Chan) (v : Bool) : SendResult :=
  if c.closed then SendResult.panic
  else if c.buf.length < cap then SendResult.ok { c with buf := c.buf ++ [v] }
  else SendResult.blocked

/-- The expression `<-c`: the received value and the channel afterwards, or
`none` when the receive blocks (empty buffer, channel open). -/
def Chan.recv (c : Chan) : Option (Bool × Chan) :=
  match c.buf with
  | v :: rest => some (v, { c with buf := rest })
  | [] => if c.closed then some (false, c) else none

/-- The call `close(c)`; `none` is the panic on closing a closed channel. -/
def Chan.close (c : Chan) : Option Chan :=
  if c.closed then none else some { c with closed := true }

/-- The result of `make(chan bool, 1)`. -/
def Chan.make : Chan := ⟨[], false⟩

/-! ## The fetch -/

/-- What the outside world does during one call of
`getConfigurationsFromService`. -/
inductive FetchEnv where
  /-- The call `http.NewRequest` returns an error. -/
  | requestError
  /-- The call `client.Do` returns `resp == nil`. -/
  | noResponse
  /-- The response is not nil and `Decode` fails, having filled `filled` so far. -/
  | decodeError (filled : List configuration)
  /-- The response is not nil and `Decode` succeeds with the list `l`. -/
  | decoded (l : List configuration)
deriving DecidableEq, Repr

/-- The method `getConfigurationsFromService`: the returned list and error
(`none` is `nil`).  A nil slice and an empty slice are both `[]`. -/
def getConfigurationsFromService : FetchEnv → List configuration × Option String
  | FetchEnv.requestError => ([], some "http.NewRequest")
  | FetchEnv.noResponse => ([], some "an error occurred")
  | FetchEnv.decodeError _ => ([], some "an error occurred while decoding response")
  | FetchEnv.decoded l => (l, none)

/-! ## The loader -/

/-- Observable effects of the loader, in program order. -/
inductive Event where
  /-- The log line "configurations didn't update counter:%d". -/
  | didntUpdate (counter : Int)
  /-- The call `time.Sleep(d)`. -/
  | sleep (d : Duration)
  /-- The log line "changed configuration value ...". -/
  | changedConfiguration (key newValue oldValue : String)
  /-- The log line "new configuration found ...". -/
  | newConfiguration (key value : String)
  /-- The statement `IsInitialized <- true`. -/
  | sendIsInitialized
  /-- The statement `close(IsInitialized)`. -/
  | closeIsInitialized
  /-- The log line "wrong intervalTimeInSecond value, will be set as: %s". -/
  | wrongInterval (d : Duration)
  /-- The call `log.Fatal("arrived max retry count before first load")`. -/
  | fatal
deriving DecidableEq, Repr

/-- Whether the loader goroutine is still running, and if not why. -/
inductive Status where
  | running
  /-- The call `log.Fatal` ended the process. -/
  | fatal
  /-- A channel operation blocks for ever. -/
  | blocked
  /-- A channel operation panicked. -/
  | panicked
deriving DecidableEq, Repr

/-- The package variables and the locals of `loadConfigurationsFromService`. -/
structure LoaderState where
  s : Settings
  f : Bool
  init : Bool
  counter : Int
  configurationDtoList : Cache
  interval : Chan
  IsInitialized : Chan
  status : Status
  trace : List Event

/-- The body of the `range configurationList` loop for one pair: the cache
afterwards and the log lines written. -/
def reconcilePair (f : Bool) (configurationDtoList : Cache) (config : configuration) :
    Cache × List Event :=
  match configurationDtoList config.Key with
  | some cDto =>
    if cDto.value ≠ config.Value then
      (configurationDtoList.set config.Key { cDto with value := config.Value },
        if !f then [Event.changedConfiguration config.Key config.Value cDto.value] else [])
    else (configurationDtoList, [])
  | none =>
    (configurationDtoList.set config.Key ⟨config.Key, config.Value⟩,
      [Event.newConfiguration config.Key config.Value])

/-- The `range configurationList` loop. -/
def reconcile (f : Bool) (configurationDtoList : Cache) :
    List configuration → Cache × List Event
  | [] => (configurationDtoList, [])
  | config :: rest =>
    let r := reconcilePair f configurationDtoList config
    let r' := reconcile f r.1 rest
    (r'.1, r.2 ++ r'.2)

/-- Appends one event to the trace. -/
def LoaderState.emit (st : LoaderState) (e : Event) : LoaderState :=
  { st with trace := st.trace ++ [e] }

/-- The statements `interval <- true; continue` ending an iteration. -/
def LoaderState.sendInterval (st : LoaderState) : LoaderState :=
  match st.interval.send 1 true with
  | SendResult.ok c => { st with interval := c }
  | SendResult.blocked => { st with status := Status.blocked }
  | SendResult.panic => { st with status := Status.panicked }

/-- The block `if f { ... }` after the reconcile loop. -/
def LoaderState.firstLoad (st : LoaderState) : LoaderState :=
  if st.f then
    match st.IsInitialized.send 1 true with
    | SendResult.ok c =>
      let st1 := { st.emit Event.sendIsInitialized with IsInitialized := c, init := true }
      match st1.IsInitialized.close with
      | some c' =>
        let st2 := { st1.emit Event.closeIsInitialized with IsInitialized := c', f := false }
        if st2.s.RefreshIntervalTime < Millisecond * 1 then
          { st2 with s := { st2.s with RefreshIntervalTime := Second * 60 } }.emit
            (Event.wrongInterval (Second * 60))
        else st2
      | none => { st1 with status := Status.panicked }
    | SendResult.blocked => { st with status := Status.blocked }
    | SendResult.panic => { st with status := Status.panicked }
  else st

/-- One pass through the body of the `for` loop of
`loadConfigurationsFromService`, the fetch answering as `env` says.  The Go
`counter++` is taken only when `counter < s.FirstTimeLoadRetryCount`, so it
never wraps and `counter` is an unbounded integer here. -/
def iteration (st : LoaderState) (env : FetchEnv) : LoaderState :=
  if st.status ≠ Status.running then st
  else
    match st.interval.recv with
    | none => { st with status := Status.blocked }
    | some (_, ch) =>
      let st0 := { st with interval := ch }
      let r := getConfigurationsFromService env
      if r.2.isSome && st0.f then
        let st1 := st0.emit (Event.didntUpdate st0.counter)
        if decide (st1.counter < st1.s.FirstTimeLoadRetryCount) && !st1.init then
          let st2 := st1.emit (Event.sleep defaultRequestDelayInSecond)
          { st2 with counter := st2.counter + 1 }.sendInterval
        else if st1.init then
          (st1.emit (Event.sleep st1.s.RefreshIntervalTime)).sendInterval
        else
          { st1.emit Event.fatal with status := Status.fatal }
      else
        let c := reconcile st0.f st0.configurationDtoList r.1
        let st1 := { st0 with configurationDtoList := c.1, trace := st0.trace ++ c.2 }
        let st2 := st1.firstLoad
        if st2.status ≠ Status.running then st2
        else (st2.emit (Event.sleep st2.s.RefreshIntervalTime)).sendInterval

/-- The function `Init`, up to the start of the loader goroutine: the package
variables as initialised, `s.url = BaseUrl`, `interval <- true`, and the
locals `f`, `init`, `counter` at loop entry. -/
def Init (s : Settings) : LoaderState :=
  LoaderState.sendInterval
    { s := { s with url := BaseUrl }
      f := true
      init := false
      counter := 0
      configurationDtoList := Cache.empty
      interval := Chan.make
      IsInitialized := Chan.make
      status := Status.running
      trace := [] }

/-- The loader run through as many iterations as there are fetch answers. -/
def run (st : LoaderState) (envs : List FetchEnv) : LoaderState :=
  envs.foldl iteration st

/-- The durations of the `time.Sleep` calls of a trace, in order. -/
def sleeps : List Event → List Duration
  | [] => []
  | Event.sleep d :: es => d :: sleeps es
  | _ :: es => sleeps es

/-! ## Typed accessors -/

/-- The outcome of a call that may end the process: it returns a value, or
`log.Fatal` has called `os.Exit(1)` and nothing is returned. -/
inductive Call (α : Type) where
  | returned (v : α)
  | exited
deriving DecidableEq, Repr

/-- Sequencing of statements: what follows a call that ended the process is
not run. -/
def Call.andThen {α β : Type} (c : Call α) (k : α → Call β) : Call β :=
  match c with
  | Call.returned v => k v
  | Call.exited => Call.exited

/-- The call `log.Fatal(...)` of logrus: it logs and exits the process. -/
def logFatal : Call Unit := Call.exited

/-- The constant `IntDefault`. -/
def IntDefault : Int := 0

/-- The constant `BoolDefault`. -/
def BoolDefault : Bool := false

/-- The byte is an ASCII decimal digit. -/
def isDecimalDigit (ch : Char) : Bool :=
  decide (48 ≤ ch.toNat) && decide (ch.toNat ≤ 57)

/-- The number written by a list of decimal digits. -/
def decimalValue (digits : List Char) : Nat :=
  digits.foldl (fun n ch => n * 10 + (ch.toNat - 48)) 0

/-- The standard library function `strconv.Atoi` on a 64-bit platform, `none`
being a non-nil error: an optional sign, then one or more decimal digits, the
value within the range of `int`. -/
def Atoi (str : String) : Option Int :=
  let signed : Bool × List Char :=
    match str.toList with
    | '-' :: rest => (true, rest)
    | '+' :: rest => (false, rest)
    | rest => (false, rest)
  if signed.2.isEmpty || !signed.2.all isDecimalDigit then none
  else
    let n : Int := if signed.1 then -(decimalValue signed.2 : Int) else decimalValue signed.2
    if -9223372036854775808 ≤ n ∧ n ≤ 9223372036854775807 then some n else none

/-- The standard library function `strconv.ParseBool`, `none` being a non-nil
error. -/
def ParseBool (str : String) : Option Bool :=
  if str = "1" ∨ str = "t" ∨ str = "T" ∨ str = "true" ∨ str = "TRUE" ∨ str = "True" then
    some true
  else if str = "0" ∨ str = "f" ∨ str = "F" ∨ str = "false" ∨ str = "FALSE" ∨
      str = "False" then
    some false
  else none

/-- The method `String`. -/
def ConfigurationDto.String (c : ConfigurationDto) : String :=
  c.value

/-- The method `Int`. -/
def ConfigurationDto.Int (c : ConfigurationDto) : Call Int :=
  match Atoi c.value with
  | none => logFatal.andThen (fun _ => Call.returned IntDefault)
  | some n => Call.returned n

/-- The method `Bool`. -/
def ConfigurationDto.Bool (c : ConfigurationDto) : Call Bool :=
  match ParseBool c.value with
  | none => logFatal.andThen (fun _ => Call.returned BoolDefault)
  | some n => Call.returned n

/-- The waiters' receives: `n` successive `<-c`, the values received and the
channel afterwards, or `none` as soon as one of them blocks. -/
def recvs : Nat → Chan → Option (List Bool × Chan)
  | 0, c => some ([], c)
  | n + 1, c =>
    match c.recv with
    | none => none
    | some (v, c') =>
      match recvs n c' with
      | none => none
      | some (vs, c'') => some (v :: vs, c'')

/-! ## Vocabulary of the statements -/

/-- The fetch answers with a non-nil error. -/
def FetchEnv.fails (env : FetchEnv) : Bool :=
  (getConfigurationsFromService env).2.isSome

/-- The interval the loader sleeps for once the first load is done: what the
test `s.RefreshIntervalTime < time.Millisecond*1` leaves in `s`. -/
def clampInterval (d : Duration) : Duration :=
  if d < Millisecond * 1 then Second * 60 else d

/-- The log line written when the interval is replaced, if it is. -/
def clampWarning (d : Duration) : List Event :=
  if d < Millisecond * 1 then [Event.wrongInterval (Second * 60)] else []

/-- The keys of a fetched list. -/
def keysOf (l : List configuration) : List String :=
  l.map (fun config => config.Key)

/-- The value of the last pair of `l` whose key is `k`, if there is one. -/
def lastValue (l : List configuration) (k : String) : Option String :=
  (l.reverse.find? (fun config => config.Key == k)).map (fun config => config.Value)

/-- Every stored entry carries the key it is stored under. -/
def KeysAgree (m : Cache) : Prop :=
  ∀ k d, m k = some d → d.key = k

/-- The log line the spec asks of one incoming pair after the first load, given
the cache the pair meets: "new" for an absent key, "changed" for a present key
with another value, nothing for a present key with the same value. -/
def notification (m : Cache) (config : configuration) : List Event :=
  match m config.Key with
  | none => [Event.newConfiguration config.Key config.Value]
  | some d =>
    if d.value = config.Value then []
    else [Event.changedConfiguration config.Key config.Value d.value]

/-- The event is a "changed configuration" log line. -/
def Event.isChanged : Event → Bool
  | Event.changedConfiguration _ _ _ => true
  | _ => false

/-- The event is a "new configuration" log line for key `k`. -/
def Event.isNewFor (k : String) : Event → Bool
  | Event.newConfiguration k' _ => k' == k
  | _ => false

/-- The event is a send on, or the close of, `IsInitialized`. -/
def Event.isSignal : Event → Bool
  | Event.sendIsInitialized => true
  | Event.closeIsInitialized => true
  | _ => false

/-- The trace of `n` retried failures starting at counter `c`. -/
def retryTrace (c : Int) : Nat → List Event
  | 0 => []
  | n + 1 =>
    Event.didntUpdate c :: Event.sleep defaultRequestDelayInSecond :: retryTrace (c + 1) n

/-- The successful fetches of a run, oldest first. -/
def successes (envs : List FetchEnv) : List (List configuration) :=
  (envs.filter (fun env => !env.fails)).map (fun env => (getConfigurationsFromService env).1)

/-- The value the most recent successful fetch containing `k` reports for `k`
(in its last pair with that key), if any successful fetch contained `k`. -/
def lastReported (envs : List FetchEnv) (k : String) : Option String :=
  (successes envs).reverse.findSome? (fun l => lastValue l k)

/-- C6 as the spec words it: `Get k` is the zero value if no successful fetch so
far contained `k`, and otherwise is `(k, v)` with `v` the value that the most
recent successful fetch reports for `k`. -/
def GetReflectsMostRecentFetch (s : Settings) (envs : List FetchEnv) (k : String) : Prop :=
  if ∀ l ∈ successes envs, k ∉ keysOf l then
    Get (run (Init s) envs).configurationDtoList k = ConfigurationDto.zero
  else
    ∃ l v, (successes envs).getLast? = some l ∧ lastValue l k = some v ∧
      Get (run (Init s) envs).configurationDtoList k = ⟨k, v⟩

/-- A cache holding `a = 1`. -/
def cacheA1 : Cache := Cache.empty.set "a" ⟨"a", "1"⟩

/-- Settings with a retry budget of one and a zero refresh interval. -/
def budgetOne : Settings := ⟨"", "project", 0, 1⟩

/-- What holds of every state the loader started by `Init s` passes through at
the head of an iteration. -/
structure Good (s : Settings) (st : LoaderState) : Prop where
  budget : st.s.FirstTimeLoadRetryCount = s.FirstTimeLoadRetryCount
  init_eq : st.init = !st.f
  status_cases : st.status = Status.running ∨ (st.status = Status.fatal ∧ st.f = true)
  interval_ready : st.status = Status.running → st.interval = ⟨[true], false⟩
  awaiting : st.f = true →
    st.configurationDtoList = Cache.empty ∧ st.IsInitialized = Chan.make ∧
      st.s.RefreshIntervalTime = s.RefreshIntervalTime ∧
      st.trace.count Event.sendIsInitialized = 0 ∧
      st.trace.count Event.closeIsInitialized = 0
  steady : st.f = false →
    st.IsInitialized = ⟨[true], true⟩ ∧
      st.s.RefreshIntervalTime = clampInterval s.RefreshIntervalTime ∧
      st.trace.count Event.sendIsInitialized = 1 ∧
      st.trace.count Event.closeIsInitialized = 1
  keys : KeysAgree st.configurationDtoList

/-! ## One iteration, case by case -/

theorem fails_list_nil (env : FetchEnv) (h : env.fails = true) :
    (getConfigurationsFromService env).1 = [] := by
  cases env <;> simp_all [FetchEnv.fails, getConfigurationsFromService]

theorem iteration_halted (st : LoaderState) (env : FetchEnv)
    (h : st.status ≠ Status.running) : iteration st env = st := by
  simp [iteration, h]

theorem iteration_retry (st : LoaderState) (env : FetchEnv)
    (hrun : st.status = Status.running) (hint : st.interval = ⟨[true], false⟩)
    (hf : st.f = true) (hinit : st.init = false) (herr : env.fails = true)
    (hlt : st.counter < st.s.FirstTimeLoadRetryCount) :
    iteration st env =
      { st with
        counter := st.counter + 1
        trace := st.trace ++
          [Event.didntUpdate st.counter, Event.sleep defaultRequestDelayInSecond] } := by
  obtain ⟨s, f, init, counter, cache, interval, isInit, status, trace⟩ := st
  simp only at hrun hint hf hinit hlt
  subst hrun hint hf hinit
  simp only [FetchEnv.fails] at herr
  simp [iteration, Chan.recv, herr, hlt, LoaderState.emit, LoaderState.sendInterval, Chan.send]

theorem iteration_fatal (st : LoaderState) (env : FetchEnv)
    (hrun : st.status = Status.running) (hint : st.interval = ⟨[true], false⟩)
    (hf : st.f = true) (hinit : st.init = false) (herr : env.fails = true)
    (hge : ¬ st.counter < st.s.FirstTimeLoadRetryCount) :
    iteration st env =
      { st with
        interval := ⟨[], false⟩
        status := Status.fatal
        trace := st.trace ++ [Event.didntUpdate st.counter, Event.fatal] } := by
  obtain ⟨s, f, init, counter, cache, interval, isInit, status, trace⟩ := st
  simp only at hrun hint hf hinit hge
  subst hrun hint hf hinit
  simp only [FetchEnv.fails] at herr
  simp [iteration, Chan.recv, herr, hge, LoaderState.emit]

theorem iteration_first (st : LoaderState) (env : FetchEnv)
    (hrun : st.status = Status.running) (hint : st.interval = ⟨[true], false⟩)
    (hf : st.f = true) (hch : st.IsInitialized = Chan.make) (herr : env.fails = false) :
    iteration st env =
      { st with
        s := { st.s with RefreshIntervalTime := clampInterval st.s.RefreshIntervalTime }
        f := false
        init := true
        configurationDtoList :=
          (reconcile true st.configurationDtoList (getConfigurationsFromService env).1).1
        IsInitialized := ⟨[true], true⟩
        trace := st.trace ++
          (reconcile true st.configurationDtoList (getConfigurationsFromService env).1).2 ++
          [Event.sendIsInitialized, Event.closeIsInitialized] ++
          clampWarning st.s.RefreshIntervalTime ++
          [Event.sleep (clampInterval st.s.RefreshIntervalTime)] } := by
  obtain ⟨s, f, init, counter, cache, interval, isInit, status, trace⟩ := st
  simp only at hrun hint hf hch
  subst hrun hint hf hch
  simp only [FetchEnv.fails] at herr
  by_cases hlt : s.RefreshIntervalTime < Millisecond <;>
  simp [iteration, Chan.recv, herr, hlt, LoaderState.emit, LoaderState.sendInterval, Chan.send,
    LoaderState.firstLoad, Chan.make, Chan.close, clampInterval, clampWarning]

theorem iteration_steady (st : LoaderState) (env : FetchEnv)
    (hrun : st.status = Status.running) (hint : st.interval = ⟨[true], false⟩)
    (hf : st.f = false) :
    iteration st env =
      { st with
        configurationDtoList :=
          (reconcile false st.configurationDtoList (getConfigurationsFromService env).1).1
        trace := st.trace ++
          (reconcile false st.configurationDtoList (getConfigurationsFromService env).1).2 ++
          [Event.sleep st.s.RefreshIntervalTime] } := by
  obtain ⟨s, f, init, counter, cache, interval, isInit, status, trace⟩ := st
  simp only at hrun hint hf
  subst hrun hint hf
  simp [iteration, Chan.recv, LoaderState.emit, LoaderState.sendInterval, Chan.send,
    LoaderState.firstLoad]

/-! ## The reconcile loop -/

theorem reconcilePair_key (f : Bool) (m : Cache) (config : configuration) :
    (reconcilePair f m config).1 config.Key =
      some ⟨(match m config.Key with
              | some d => d.key
              | none => config.Key), config.Value⟩ := by
  unfold reconcilePair
  cases h : m config.Key with
  | none => simp [Cache.set]
  | some d =>
    by_cases hv : d.value = config.Value
    · simp [hv, h]
      cases d
      simp_all
    · simp [hv, Cache.set]

theorem reconcilePair_other (f : Bool) (m : Cache) (config : configuration) (k : String)
    (hk : k ≠ config.Key) : (reconcilePair f m config).1 k = m k := by
  unfold reconcilePair
  cases h : m config.Key with
  | none => simp [Cache.set, hk]
  | some d =>
    by_cases hv : d.value = config.Value
    · simp [hv]
    · simp [hv, Cache.set, hk]

theorem keysAgree_empty : KeysAgree Cache.empty := by
  intro k d h
  simp [Cache.empty] at h

theorem reconcilePair_keysAgree (f : Bool) (m : Cache) (config : configuration)
    (hm : KeysAgree m) : KeysAgree (reconcilePair f m config).1 := by
  intro k d h
  by_cases hk : k = config.Key
  · subst hk
    rw [reconcilePair_key] at h
    cases hc : m config.Key with
    | none =>
      rw [hc] at h
      simp at h
      rw [← h]
    | some d' =>
      rw [hc] at h
      simp at h
      rw [← h]
      exact hm config.Key d' hc
  · rw [reconcilePair_other f m config k hk] at h
    exact hm k d h

theorem reconcile_keysAgree (f : Bool) (l : List configuration) :
    ∀ m : Cache, KeysAgree m → KeysAgree (reconcile f m l).1 := by
  induction l with
  | nil => intro m hm; simpa [reconcile] using hm
  | cons x xs ih =>
    intro m hm
    simp only [reconcile]
    exact ih _ (reconcilePair_keysAgree f m x hm)

theorem reconcile_append (f : Bool) (l₁ l₂ : List configuration) :
    ∀ m : Cache, reconcile f m (l₁ ++ l₂) =
      ((reconcile f (reconcile f m l₁).1 l₂).1,
        (reconcile f m l₁).2 ++ (reconcile f (reconcile f m l₁).1 l₂).2) := by
  induction l₁ with
  | nil => intro m; simp [reconcile]
  | cons x xs ih =>
    intro m
    rw [List.cons_append]
    simp only [reconcile]
    rw [ih]
    simp only [List.append_assoc]

theorem lastValue_cons (x : configuration) (xs : List configuration) (k : String) :
    lastValue (x :: xs) k =
      match lastValue xs k with
      | some v => some v
      | none => if x.Key = k then some x.Value else none := by
  unfold lastValue
  rw [List.reverse_cons, List.find?_append]
  cases h : List.find? (fun config => config.Key == k) xs.reverse with
  | some y => simp
  | none =>
    by_cases hk : x.Key = k <;> simp [hk]

theorem lastValue_eq_none (l : List configuration) (k : String) :
    lastValue l k = none ↔ k ∉ keysOf l := by
  induction l with
  | nil => simp [lastValue, keysOf]
  | cons x xs ih =>
    rw [lastValue_cons]
    cases h : lastValue xs k with
    | some v =>
      have : ¬ k ∉ keysOf xs := fun hn => by rw [ih.mpr hn] at h; cases h
      simp only [keysOf, List.map_cons, List.mem_cons, not_or] at this ⊢
      simp
      intro _
      simpa [keysOf] using this
    | none =>
      have hx := ih.mp h
      simp only [keysOf, List.map_cons, List.mem_cons, not_or] at hx ⊢
      by_cases hk : x.Key = k
      · simp [hk]
      · simp [hk, hx, Ne.symm hk]

theorem reconcile_lookup (f : Bool) (l : List configuration) :
    ∀ m : Cache, KeysAgree m → ∀ k,
      (reconcile f m l).1 k =
        match lastValue l k with
        | some v => some ⟨k, v⟩
        | none => m k := by
  induction l with
  | nil => intro m _ k; simp [reconcile, lastValue]
  | cons x xs ih =>
    intro m hm k
    simp only [reconcile]
    rw [ih _ (reconcilePair_keysAgree f m x hm) k, lastValue_cons]
    cases h : lastValue xs k with
    | some v => rfl
    | none =>
      by_cases hk : x.Key = k
      · subst hk
        simp only [if_true]
        rw [reconcilePair_key]
        cases hc : m x.Key with
        | none => rfl
        | some d => simp [hm _ _ hc]
      · simp only [hk, if_false]
        exact reconcilePair_other f m x k (Ne.symm hk)

/-! ## The invariant of the loader -/

theorem reconcilePair_events (f : Bool) (m : Cache) (config : configuration) :
    ∀ e ∈ (reconcilePair f m config).2, e.isSignal = false := by
  intro e he
  unfold reconcilePair at he
  cases h : m config.Key with
  | none =>
    simp [h] at he
    subst he
    rfl
  | some d =>
    by_cases hv : d.value = config.Value
    · simp [h, hv] at he
    · cases f <;> simp [h, hv] at he
      subst he
      rfl

theorem reconcile_events (f : Bool) (l : List configuration) :
    ∀ m : Cache, ∀ e ∈ (reconcile f m l).2, e.isSignal = false := by
  induction l with
  | nil => intro m e he; simp [reconcile] at he
  | cons x xs ih =>
    intro m e he
    simp only [reconcile, List.mem_append] at he
    rcases he with he | he
    · exact reconcilePair_events f m x e he
    · exact ih _ e he

theorem reconcile_count_send (f : Bool) (m : Cache) (l : List configuration) :
    (reconcile f m l).2.count Event.sendIsInitialized = 0 := by
  rw [List.count_eq_zero]
  intro h
  have := reconcile_events f l m _ h
  simp [Event.isSignal] at this

theorem reconcile_count_close (f : Bool) (m : Cache) (l : List configuration) :
    (reconcile f m l).2.count Event.closeIsInitialized = 0 := by
  rw [List.count_eq_zero]
  intro h
  have := reconcile_events f l m _ h
  simp [Event.isSignal] at this

theorem clampWarning_count_send (d : Duration) :
    (clampWarning d).count Event.sendIsInitialized = 0 := by
  unfold clampWarning
  split <;> simp [List.count_cons]

theorem clampWarning_count_close (d : Duration) :
    (clampWarning d).count Event.closeIsInitialized = 0 := by
  unfold clampWarning
  split <;> simp [List.count_cons]

theorem good_Init (s : Settings) : Good s (Init s) := by
  constructor <;>
    simp [Init, LoaderState.sendInterval, Chan.send, Chan.make, keysAgree_empty]

theorem good_iteration (s : Settings) (st : LoaderState) (env : FetchEnv)
    (h : Good s st) : Good s (iteration st env) := by
  by_cases hrun : st.status = Status.running
  · have hint := h.interval_ready hrun
    cases hf : st.f with
    | true =>
      have hinit : st.init = false := by rw [h.init_eq, hf]; rfl
      obtain ⟨hc, hch, hint', hs, hcl⟩ := h.awaiting hf
      cases herr : env.fails with
      | true =>
        by_cases hlt : st.counter < st.s.FirstTimeLoadRetryCount
        · rw [iteration_retry st env hrun hint hf hinit herr hlt]
          constructor <;> simp [h.budget, hf, hinit, hrun, hint, hc, hch, hint', hs, hcl,
            keysAgree_empty, List.count_cons]
        · rw [iteration_fatal st env hrun hint hf hinit herr hlt]
          constructor <;> simp [h.budget, hf, hinit, hrun, hint, hc, hch, hint', hs, hcl,
            keysAgree_empty, List.count_cons]
      | false =>
        rw [iteration_first st env hrun hint hf hch herr]
        constructor
        · simp [h.budget]
        · simp
        · simp [hrun]
        · simp [hint]
        · simp
        · intro _
          refine ⟨rfl, ?_, ?_, ?_⟩
          · simp [hint']
          · simp [hs, reconcile_count_send, clampWarning_count_send, List.count_cons]
          · simp [hcl, reconcile_count_close, clampWarning_count_close, List.count_cons]
        · simp only
          rw [hc]
          exact reconcile_keysAgree true _ _ keysAgree_empty
    | false =>
      obtain ⟨hch, hint', hs, hcl⟩ := h.steady hf
      rw [iteration_steady st env hrun hint hf]
      constructor
      · simp [h.budget]
      · simp [h.init_eq]
      · simp [hrun]
      · simp [hint]
      · simp [hf]
      · intro _
        refine ⟨hch, hint', ?_, ?_⟩
        · simp [hs, reconcile_count_send, List.count_cons]
        · simp [hcl, reconcile_count_close, List.count_cons]
      · exact reconcile_keysAgree false _ _ h.keys
  · rw [iteration_halted st env hrun]
    exact h

theorem run_append (st : LoaderState) (e₁ e₂ : List FetchEnv) :
    run st (e₁ ++ e₂) = run (run st e₁) e₂ := by
  simp [run, List.foldl_append]

theorem run_cons (st : LoaderState) (env : FetchEnv) (envs : List FetchEnv) :
    run st (env :: envs) = run (iteration st env) envs := rfl

theorem run_snoc (st : LoaderState) (envs : List FetchEnv) (env : FetchEnv) :
    run st (envs ++ [env]) = iteration (run st envs) env := by
  simp [run, List.foldl_append]

theorem good_run_from (s : Settings) (envs : List FetchEnv) :
    ∀ st, Good s st → Good s (run st envs) := by
  induction envs with
  | nil => intro st h; exact h
  | cons env envs ih => intro st h; exact ih _ (good_iteration s st env h)

theorem good_run (s : Settings) (envs : List FetchEnv) : Good s (run (Init s) envs) :=
  good_run_from s envs _ (good_Init s)

theorem loader_keysAgree (s : Settings) (envs : List FetchEnv) :
    KeysAgree (run (Init s) envs).configurationDtoList :=
  (good_run s envs).keys

/-! ## Runs of failures -/

theorem run_halted (envs : List FetchEnv) :
    ∀ st : LoaderState, st.status ≠ Status.running → run st envs = st := by
  induction envs with
  | nil => intro st _; rfl
  | cons env envs ih =>
    intro st h
    rw [run_cons, iteration_halted st env h]
    exact ih st h

theorem run_steady_failures (fails : List FetchEnv)
    (hfail : ∀ env ∈ fails, env.fails = true) :
    ∀ st : LoaderState, st.status = Status.running → st.interval = ⟨[true], false⟩ →
      st.f = false →
      run st fails =
        { st with
          trace := st.trace ++ List.replicate fails.length (Event.sleep st.s.RefreshIntervalTime) } := by
  induction fails with
  | nil => intro st _ _ _; simp [run]
  | cons env envs ih =>
    intro st hrun hint hf
    have he : env.fails = true := hfail env (List.mem_cons_self _ _)
    rw [run_cons, iteration_steady st env hrun hint hf, fails_list_nil env he]
    refine Eq.trans (ih (fun e h => hfail e (List.mem_cons_of_mem _ h)) _ hrun hint hf) ?_
    simp [reconcile, List.replicate_succ]

theorem run_retries (fails : List FetchEnv)
    (hfail : ∀ env ∈ fails, env.fails = true) :
    ∀ st : LoaderState, st.status = Status.running → st.interval = ⟨[true], false⟩ →
      st.f = true → st.init = false →
      st.counter + fails.length ≤ st.s.FirstTimeLoadRetryCount →
      run st fails =
        { st with
          counter := st.counter + fails.length
          trace := st.trace ++ retryTrace st.counter fails.length } := by
  induction fails with
  | nil => intro st _ _ _ _ _; simp [run, retryTrace]
  | cons env envs ih =>
    intro st hrun hint hf hinit hle
    have he : env.fails = true := hfail env (List.mem_cons_self _ _)
    have hlt : st.counter < st.s.FirstTimeLoadRetryCount := by
      simp only [List.length_cons, Nat.cast_add, Nat.cast_one] at hle
      omega
    rw [run_cons, iteration_retry st env hrun hint hf hinit he hlt]
    refine Eq.trans (ih (fun e h => hfail e (List.mem_cons_of_mem _ h)) _ hrun hint hf hinit
      (by simp only [List.length_cons, Nat.cast_add, Nat.cast_one] at hle ⊢; omega)) ?_
    simp only [retryTrace, List.length_cons, Nat.cast_add, Nat.cast_one, List.append_assoc,
      List.cons_append, List.nil_append]
    congr 1
    omega

theorem retryTrace_sleeps (c : Int) (n : Nat) :
    sleeps (retryTrace c n) = List.replicate n defaultRequestDelayInSecond := by
  induction n generalizing c with
  | zero => rfl
  | succ n ih => simp [retryTrace, sleeps, ih, List.replicate_succ]

theorem init_fields (s : Settings) :
    (Init s).status = Status.running ∧ (Init s).interval = ⟨[true], false⟩ ∧
    (Init s).f = true ∧ (Init s).init = false ∧ (Init s).counter = 0 ∧
    (Init s).trace = [] ∧ (Init s).s.FirstTimeLoadRetryCount = s.FirstTimeLoadRetryCount := by
  simp [Init, LoaderState.sendInterval, Chan.send, Chan.make]

theorem steady_running (s : Settings) (st : LoaderState) (h : Good s st)
    (hf : st.f = false) : st.status = Status.running := by
  rcases h.status_cases with h | ⟨_, h⟩
  · exact h
  · rw [hf] at h; cases h

theorem awaiting_all_fail (s : Settings) (envs : List FetchEnv) :
    (run (Init s) envs).f = true → (run (Init s) envs).status = Status.running →
      ∀ e ∈ envs, e.fails = true := by
  induction envs using List.reverseRecOn with
  | nil => intro _ _ e he; cases he
  | append_singleton l a ih =>
    rw [run_snoc]
    intro hf hrun
    have hg := good_run s l
    have hrun' : (run (Init s) l).status = Status.running := by
      by_contra hne
      rw [iteration_halted _ a hne] at hrun
      exact hne hrun
    have hint := hg.interval_ready hrun'
    have hf' : (run (Init s) l).f = true := by
      by_contra hne
      have hff : (run (Init s) l).f = false := by simpa using hne
      rw [iteration_steady _ a hrun' hint hff] at hf
      simp [hff] at hf
    have ha : a.fails = true := by
      by_contra hne
      have hff : a.fails = false := by simpa using hne
      rw [iteration_first _ a hrun' hint hf' (hg.awaiting hf').2.1 hff] at hf
      simp at hf
    intro e he
    rcases List.mem_append.mp he with he | he
    · exact ih hf' hrun' e he
    · simp at he
      rw [he]
      exact ha

theorem steady_some_success (s : Settings) (envs : List FetchEnv) :
    (run (Init s) envs).f = false → ∃ e ∈ envs, e.fails = false := by
  induction envs using List.reverseRecOn with
  | nil => intro h; simp [run, (init_fields s).2.2.1] at h
  | append_singleton l a ih =>
    rw [run_snoc]
    intro hf
    have hg := good_run s l
    cases hf' : (run (Init s) l).f with
    | false =>
      obtain ⟨e, he, hs⟩ := ih hf'
      exact ⟨e, List.mem_append_left _ he, hs⟩
    | true =>
      cases ha : a.fails with
      | false => exact ⟨a, by simp, ha⟩
      | true =>
        exfalso
        by_cases hrun' : (run (Init s) l).status = Status.running
        · have hint := hg.interval_ready hrun'
          have hinit : (run (Init s) l).init = false := by rw [hg.init_eq, hf']; rfl
          by_cases hlt : (run (Init s) l).counter < (run (Init s) l).s.FirstTimeLoadRetryCount
          · rw [iteration_retry _ a hrun' hint hf' hinit ha hlt] at hf
            simp [hf'] at hf
          · rw [iteration_fatal _ a hrun' hint hf' hinit ha hlt] at hf
            simp [hf'] at hf
        · rw [iteration_halted _ a hrun'] at hf
          rw [hf'] at hf
          cases hf

/-! ## The claims -/

/-- C1: after a first successful load (the flag `f` is down), any number of
consecutive failed fetches leaves the cache as it was, so `Get` answers every
key as before, and the loader is still running. -/
theorem steady_failures_keep_cache (s : Settings) (pre fails : List FetchEnv)
    (hloaded : (run (Init s) pre).f = false)
    (hfail : ∀ env ∈ fails, env.fails = true) :
    (run (Init s) (pre ++ fails)).configurationDtoList =
        (run (Init s) pre).configurationDtoList ∧
      (∀ k, Get (run (Init s) (pre ++ fails)).configurationDtoList k =
        Get (run (Init s) pre).configurationDtoList k) ∧
      (run (Init s) (pre ++ fails)).status = Status.running := by
  have hg := good_run s pre
  have hrun := steady_running s _ hg hloaded
  rw [run_append, run_steady_failures fails hfail _ hrun (hg.interval_ready hrun) hloaded]
  exact ⟨rfl, fun _ => rfl, hrun⟩

/-- C1 at a concrete run: one successful load of `a = 1`, then three failed
fetches of the three kinds. -/
theorem steady_failures_keep_cache_witness :
    (run (Init budgetOne) [FetchEnv.decoded [⟨"a", "1"⟩]]).f = false ∧
      (∀ env ∈ [FetchEnv.noResponse, FetchEnv.requestError,
        FetchEnv.decodeError [⟨"a", "9"⟩]], env.fails = true) ∧
      Get (run (Init budgetOne) ([FetchEnv.decoded [⟨"a", "1"⟩]] ++
          [FetchEnv.noResponse, FetchEnv.requestError,
            FetchEnv.decodeError [⟨"a", "9"⟩]])).configurationDtoList "a" =
        Get (run (Init budgetOne) [FetchEnv.decoded [⟨"a", "1"⟩]]).configurationDtoList "a" ∧
      (run (Init budgetOne) ([FetchEnv.decoded [⟨"a", "1"⟩]] ++
          [FetchEnv.noResponse, FetchEnv.requestError,
            FetchEnv.decodeError [⟨"a", "9"⟩]])).status = Status.running :=
  ⟨by decide, by decide,
    (steady_failures_keep_cache budgetOne _ _ (by decide) (by decide)).2.1 "a",
    (steady_failures_keep_cache budgetOne _ _ (by decide) (by decide)).2.2⟩

/-- C2: with a retry budget `N ≥ 0` and `N + 1` failed fetches from the start,
the loader is still running after each of the first `N` failures, having slept
the 5-second delay once per failure, and it is halted by `log.Fatal` after the
`(N+1)`-th, which adds no sleep. -/
theorem retry_budget_exact (s : Settings) (fails : List FetchEnv)
    (hN : 0 ≤ s.FirstTimeLoadRetryCount)
    (hlen : (fails.length : Int) = s.FirstTimeLoadRetryCount + 1)
    (hfail : ∀ env ∈ fails, env.fails = true) :
    (∀ j : Nat, (j : Int) ≤ s.FirstTimeLoadRetryCount →
      (run (Init s) (fails.take j)).status = Status.running ∧
        (run (Init s) (fails.take j)).trace = retryTrace 0 j ∧
        sleeps (run (Init s) (fails.take j)).trace =
          List.replicate j defaultRequestDelayInSecond) ∧
      (run (Init s) fails).status = Status.fatal ∧
      (run (Init s) fails).trace =
        retryTrace 0 (fails.length - 1) ++
          [Event.didntUpdate s.FirstTimeLoadRetryCount, Event.fatal] ∧
      defaultRequestDelayInSecond = 5000000000 := by
  obtain ⟨hrun, hint, hf, hinit, hc, htr, hb⟩ := init_fields s
  have key : ∀ j : Nat, (j : Int) ≤ s.FirstTimeLoadRetryCount →
      run (Init s) (fails.take j) =
        { Init s with counter := j, trace := retryTrace 0 j } := by
    intro j hj
    have hjl : (fails.take j).length = j := by
      rw [List.length_take]
      omega
    have h := run_retries (fails.take j)
      (fun e he => hfail e (List.mem_of_mem_take he)) (Init s) hrun hint hf hinit
      (by rw [hjl, hc, hb]; omega)
    rw [h, hjl, hc, htr]
    simp
  refine ⟨fun j hj => ?_, ?_⟩
  · rw [key j hj]
    exact ⟨hrun, rfl, retryTrace_sleeps 0 j⟩
  · have hne : fails ≠ [] := by
      intro h
      rw [h] at hlen
      simp at hlen
      omega
    have hsplit : fails = fails.take (fails.length - 1) ++ [fails.getLast hne] := by
      rw [← List.dropLast_eq_take]
      exact (List.dropLast_append_getLast hne).symm
    have hk := key (fails.length - 1) (by omega)
    have hlast : (fails.getLast hne).fails = true := hfail _ (List.getLast_mem hne)
    have hcnt : ((fails.length - 1 : Nat) : Int) = s.FirstTimeLoadRetryCount := by omega
    have hstep := iteration_fatal (run (Init s) (fails.take (fails.length - 1)))
      (fails.getLast hne) (by rw [hk]; exact hrun) (by rw [hk]; exact hint)
      (by rw [hk]; exact hf) (by rw [hk]; exact hinit) hlast
      (by rw [hk]; simp only; rw [hb]; omega)
    have hrunEq : run (Init s) fails =
        iteration (run (Init s) (fails.take (fails.length - 1))) (fails.getLast hne) := by
      conv_lhs => rw [hsplit]
      exact run_snoc _ _ _
    rw [hrunEq, hstep, hk]
    simp [hcnt]
    rfl

/-- C2 at budget 1: two failures; running after the first, fatal after the
second. -/
theorem retry_budget_exact_witness :
    (0 : Int) ≤ budgetOne.FirstTimeLoadRetryCount ∧
      (([FetchEnv.noResponse, FetchEnv.requestError].length : Nat) : Int) =
        budgetOne.FirstTimeLoadRetryCount + 1 ∧
      (∀ env ∈ [FetchEnv.noResponse, FetchEnv.requestError], env.fails = true) ∧
      (run (Init budgetOne) [FetchEnv.noResponse, FetchEnv.requestError]).status =
        Status.fatal :=
  ⟨by decide, by decide, by decide,
    (retry_budget_exact budgetOne [FetchEnv.noResponse, FetchEnv.requestError]
      (by decide) (by decide) (by decide)).2.1⟩

/-- C3, as stated, fails: with budget 1 the first failure raises the counter to
1, which is not below the budget, and yet the loader has slept 5 seconds and is
running, not halted. -/
theorem incremented_counter_not_compared :
    (Init budgetOne).f = true ∧ FetchEnv.noResponse.fails = true ∧
      (iteration (Init budgetOne) FetchEnv.noResponse).counter = (Init budgetOne).counter + 1 ∧
      ¬ ((iteration (Init budgetOne) FetchEnv.noResponse).counter <
        budgetOne.FirstTimeLoadRetryCount) ∧
      (iteration (Init budgetOne) FetchEnv.noResponse).status = Status.running ∧
      (iteration (Init budgetOne) FetchEnv.noResponse).trace =
        [Event.didntUpdate 0, Event.sleep defaultRequestDelayInSecond] := by
  decide

/-- C3, amended: on a fetch failure before the first successful load the
counter is compared before it is incremented.  When the counter is below
`FirstTimeLoadRetryCount` the loader logs, sleeps 5 seconds, increments the
counter and goes on; otherwise it logs and halts by `log.Fatal`, with the
counter as it was and no sleep. -/
theorem first_load_failure_compares_then_increments (s : Settings)
    (envs : List FetchEnv) (env : FetchEnv)
    (hf : (run (Init s) envs).f = true)
    (hrun : (run (Init s) envs).status = Status.running)
    (herr : env.fails = true) :
    ((run (Init s) envs).counter < s.FirstTimeLoadRetryCount →
      iteration (run (Init s) envs) env =
        { run (Init s) envs with
          counter := (run (Init s) envs).counter + 1
          trace := (run (Init s) envs).trace ++
            [Event.didntUpdate (run (Init s) envs).counter,
              Event.sleep defaultRequestDelayInSecond] }) ∧
      (¬ (run (Init s) envs).counter < s.FirstTimeLoadRetryCount →
        (iteration (run (Init s) envs) env).status = Status.fatal ∧
          (iteration (run (Init s) envs) env).counter = (run (Init s) envs).counter ∧
          (iteration (run (Init s) envs) env).trace = (run (Init s) envs).trace ++
            [Event.didntUpdate (run (Init s) envs).counter, Event.fatal]) := by
  have hg := good_run s envs
  have hint := hg.interval_ready hrun
  have hinit : (run (Init s) envs).init = false := by rw [hg.init_eq, hf]; rfl
  refine ⟨fun hlt => ?_, fun hge => ?_⟩
  · exact iteration_retry _ env hrun hint hf hinit herr (by rw [hg.budget]; exact hlt)
  · rw [iteration_fatal _ env hrun hint hf hinit herr (by rw [hg.budget]; exact hge)]
    exact ⟨rfl, rfl, rfl⟩

/-- C3 amended, at budget 1: the first failure (counter 0) is retried, the
second (counter 1) is fatal. -/
theorem first_load_failure_compares_then_increments_witness :
    (run (Init budgetOne) [FetchEnv.noResponse]).f = true ∧
      (run (Init budgetOne) [FetchEnv.noResponse]).status = Status.running ∧
      FetchEnv.requestError.fails = true ∧
      ¬ (run (Init budgetOne) [FetchEnv.noResponse]).counter <
        budgetOne.FirstTimeLoadRetryCount ∧
      (iteration (run (Init budgetOne) [FetchEnv.noResponse])
        FetchEnv.requestError).status = Status.fatal :=
  ⟨by decide, by decide, by decide, by decide,
    ((first_load_failure_compares_then_increments budgetOne [FetchEnv.noResponse]
      FetchEnv.requestError (by decide) (by decide) (by decide)).2 (by decide)).1⟩

theorem clampWarning_events (d : Duration) :
    ∀ e ∈ clampWarning d, e.isSignal = false := by
  intro e he
  unfold clampWarning at he
  split at he
  · simp at he
    subst he
    rfl
  · cases he

/-- C4: over any run, `IsInitialized` has been sent to and closed not at all
while the flag `f` is up and exactly once each after it is down; `f` is up only
if every fetch so far failed and down only if one succeeded.  The one iteration
that signals is the one that meets `f` up and a successful fetch (the first
success): there the send and the close come after the log lines of the
reconcile loop, with the cache already reconciled, and nothing after them
signals again.  Every other iteration signals nothing. -/
theorem isInitialized_signalled_once (s : Settings) (envs : List FetchEnv)
    (env : FetchEnv) :
    ((run (Init s) envs).trace.count Event.sendIsInitialized =
        if (run (Init s) envs).f then 0 else 1) ∧
      ((run (Init s) envs).trace.count Event.closeIsInitialized =
        if (run (Init s) envs).f then 0 else 1) ∧
      ((run (Init s) envs).f = true → (run (Init s) envs).status = Status.running →
        ∀ e ∈ envs, e.fails = true) ∧
      ((run (Init s) envs).f = false → ∃ e ∈ envs, e.fails = false) ∧
      (((run (Init s) envs).status = Status.running ∧ (run (Init s) envs).f = true ∧
          env.fails = false) →
        (iteration (run (Init s) envs) env).configurationDtoList =
            (reconcile true (run (Init s) envs).configurationDtoList
              (getConfigurationsFromService env).1).1 ∧
          ∃ rest, (iteration (run (Init s) envs) env).trace =
              (run (Init s) envs).trace ++
                (reconcile true (run (Init s) envs).configurationDtoList
                  (getConfigurationsFromService env).1).2 ++
                [Event.sendIsInitialized, Event.closeIsInitialized] ++ rest ∧
            (∀ e ∈ (reconcile true (run (Init s) envs).configurationDtoList
                (getConfigurationsFromService env).1).2, e.isSignal = false) ∧
            ∀ e ∈ rest, e.isSignal = false) ∧
      (¬ ((run (Init s) envs).status = Status.running ∧ (run (Init s) envs).f = true ∧
          env.fails = false) →
        ∃ tail, (iteration (run (Init s) envs) env).trace =
            (run (Init s) envs).trace ++ tail ∧
          ∀ e ∈ tail, e.isSignal = false) := by
  have hg := good_run s envs
  refine ⟨?_, ?_, awaiting_all_fail s envs, steady_some_success s envs, ?_, ?_⟩
  · cases hf : (run (Init s) envs).f with
    | true => simpa using (hg.awaiting hf).2.2.2.1
    | false => simpa using (hg.steady hf).2.2.1
  · cases hf : (run (Init s) envs).f with
    | true => simpa using (hg.awaiting hf).2.2.2.2
    | false => simpa using (hg.steady hf).2.2.2
  · rintro ⟨hrun, hf, hok⟩
    rw [iteration_first _ env hrun (hg.interval_ready hrun) hf (hg.awaiting hf).2.1 hok]
    refine ⟨rfl, clampWarning (run (Init s) envs).s.RefreshIntervalTime ++
      [Event.sleep (clampInterval (run (Init s) envs).s.RefreshIntervalTime)], ?_,
      reconcile_events true _ _, ?_⟩
    · simp
    · intro e he
      rcases List.mem_append.mp he with he | he
      · exact clampWarning_events _ e he
      · simp at he
        subst he
        rfl
  · intro hn
    by_cases hrun : (run (Init s) envs).status = Status.running
    · have hint := hg.interval_ready hrun
      cases hf : (run (Init s) envs).f with
      | false =>
        rw [iteration_steady _ env hrun hint hf]
        refine ⟨_, List.append_assoc _ _ _, ?_⟩
        intro e he
        rcases List.mem_append.mp he with he | he
        · exact reconcile_events false _ _ e he
        · simp at he
          subst he
          rfl
      | true =>
        have hinit : (run (Init s) envs).init = false := by rw [hg.init_eq, hf]; rfl
        have herr : env.fails = true := by
          cases h : env.fails with
          | true => rfl
          | false => exact absurd ⟨hrun, hf, h⟩ hn
        by_cases hlt : (run (Init s) envs).counter <
            (run (Init s) envs).s.FirstTimeLoadRetryCount
        · rw [iteration_retry _ env hrun hint hf hinit herr hlt]
          refine ⟨_, rfl, ?_⟩
          intro e he
          simp at he
          rcases he with he | he <;> subst he <;> rfl
        · rw [iteration_fatal _ env hrun hint hf hinit herr hlt]
          refine ⟨_, rfl, ?_⟩
          intro e he
          simp at he
          rcases he with he | he <;> subst he <;> rfl
    · rw [iteration_halted _ env hrun]
      exact ⟨[], by simp, fun e he => by cases he⟩

theorem keysAgree_cacheA1 : KeysAgree cacheA1 := by
  intro k d h
  unfold cacheA1 Cache.set Cache.empty at h
  split at h
  · rename_i hk
    simp at h
    rw [← h, hk]
  · cases h

/-- C5: from a cache whose entries carry their own keys (every cache of the
loader does), the reconcile loop over `l` leaves each key `k` of `l` bound to
`(k, v)`, `v` the value of the last pair of `l` with key `k`, and leaves every
key not in `l` as it was.  Pair by pair: an absent key is inserted, a present
key with another value is overwritten in its value, a present key with the same
value leaves the cache untouched. -/
theorem reconcile_last_value_wins (f : Bool) (m : Cache) (l : List configuration)
    (hm : KeysAgree m) :
    (∀ k ∈ keysOf l, ∃ v, lastValue l k = some v ∧
        (reconcile f m l).1 k = some ⟨k, v⟩ ∧ Get (reconcile f m l).1 k = ⟨k, v⟩) ∧
      (∀ k, k ∉ keysOf l → (reconcile f m l).1 k = m k) ∧
      (∀ config, m config.Key = none →
        (reconcilePair f m config).1 = m.set config.Key ⟨config.Key, config.Value⟩) ∧
      (∀ config d, m config.Key = some d → d.value ≠ config.Value →
        (reconcilePair f m config).1 = m.set config.Key ⟨d.key, config.Value⟩) ∧
      (∀ config d, m config.Key = some d → d.value = config.Value →
        (reconcilePair f m config).1 = m) := by
  refine ⟨fun k hk => ?_, fun k hk => ?_, fun config h => ?_, fun config d h hv => ?_,
    fun config d h hv => ?_⟩
  · cases hv : lastValue l k with
    | none => exact absurd hk ((lastValue_eq_none l k).mp hv)
    | some v =>
      have h := reconcile_lookup f l m hm k
      rw [hv] at h
      exact ⟨v, rfl, h, by simp [Get, h]⟩
  · have h := reconcile_lookup f l m hm k
    rw [(lastValue_eq_none l k).mpr hk] at h
    exact h
  · simp [reconcilePair, h]
  · simp [reconcilePair, h, hv]
  · simp [reconcilePair, h, hv]

/-- C5 at a concrete cache: `{a: 1}` reconciled with `[(a,2), (b,x), (a,3)]`. -/
theorem reconcile_last_value_wins_witness :
    KeysAgree cacheA1 ∧
      (∀ k ∈ keysOf [⟨"a", "2"⟩, ⟨"b", "x"⟩, ⟨"a", "3"⟩],
        ∃ v, lastValue [⟨"a", "2"⟩, ⟨"b", "x"⟩, ⟨"a", "3"⟩] k = some v ∧
          (reconcile false cacheA1 [⟨"a", "2"⟩, ⟨"b", "x"⟩, ⟨"a", "3"⟩]).1 k = some ⟨k, v⟩ ∧
          Get (reconcile false cacheA1 [⟨"a", "2"⟩, ⟨"b", "x"⟩, ⟨"a", "3"⟩]).1 k = ⟨k, v⟩) ∧
      lastValue [⟨"a", "2"⟩, ⟨"b", "x"⟩, ⟨"a", "3"⟩] "a" = some "3" :=
  ⟨keysAgree_cacheA1,
    (reconcile_last_value_wins false cacheA1 [⟨"a", "2"⟩, ⟨"b", "x"⟩, ⟨"a", "3"⟩]
      keysAgree_cacheA1).1,
    by decide⟩

theorem successes_snoc (l : List FetchEnv) (a : FetchEnv) :
    successes (l ++ [a]) =
      if a.fails then successes l else successes l ++ [(getConfigurationsFromService a).1] := by
  unfold successes
  cases h : a.fails <;> simp [List.filter_append, h]

theorem lastReported_snoc (l : List FetchEnv) (a : FetchEnv) (k : String) :
    lastReported (l ++ [a]) k =
      if a.fails then lastReported l k
      else match lastValue (getConfigurationsFromService a).1 k with
        | some v => some v
        | none => lastReported l k := by
  unfold lastReported
  rw [successes_snoc]
  cases h : a.fails with
  | true => simp
  | false =>
    simp only [Bool.false_eq_true, if_false, List.reverse_append, List.reverse_cons,
      List.reverse_nil, List.nil_append, List.singleton_append, List.findSome?_cons]
    cases lastValue (getConfigurationsFromService a).1 k <;> rfl

theorem lastReported_eq_none (envs : List FetchEnv) (k : String) :
    lastReported envs k = none ↔ ∀ l ∈ successes envs, k ∉ keysOf l := by
  unfold lastReported
  rw [List.findSome?_eq_none_iff]
  constructor
  · intro h l hl
    exact (lastValue_eq_none l k).mp (h l (List.mem_reverse.mpr hl))
  · intro h l hl
    exact (lastValue_eq_none l k).mpr (h l (List.mem_reverse.mp hl))

theorem iteration_cache (s : Settings) (st : LoaderState) (env : FetchEnv)
    (hg : Good s st) (hrun : st.status = Status.running) :
    (iteration st env).configurationDtoList =
      if env.fails then st.configurationDtoList
      else (reconcile st.f st.configurationDtoList (getConfigurationsFromService env).1).1 := by
  have hint := hg.interval_ready hrun
  cases hf : st.f with
  | false =>
    rw [iteration_steady st env hrun hint hf]
    cases he : env.fails with
    | true => simp [fails_list_nil env he, reconcile]
    | false => simp
  | true =>
    have hinit : st.init = false := by rw [hg.init_eq, hf]; rfl
    cases he : env.fails with
    | true =>
      by_cases hlt : st.counter < st.s.FirstTimeLoadRetryCount
      · rw [iteration_retry st env hrun hint hf hinit he hlt]; simp
      · rw [iteration_fatal st env hrun hint hf hinit he hlt]; simp
    | false =>
      rw [iteration_first st env hrun hint hf (hg.awaiting hf).2.1 he]; simp

theorem run_lookup (s : Settings) (envs : List FetchEnv) :
    (run (Init s) envs).status = Status.running →
      ∀ k, (run (Init s) envs).configurationDtoList k =
        match lastReported envs k with
        | some v => some ⟨k, v⟩
        | none => none := by
  induction envs using List.reverseRecOn with
  | nil =>
    intro _ k
    simp [run, Init, LoaderState.sendInterval, Chan.send, Chan.make, Cache.empty,
      lastReported, successes]
  | append_singleton l a ih =>
    rw [run_snoc]
    intro hrun k
    have hg := good_run s l
    have hrun' : (run (Init s) l).status = Status.running := by
      by_contra hne
      rw [iteration_halted _ a hne] at hrun
      exact hne hrun
    rw [iteration_cache s _ a hg hrun', lastReported_snoc]
    cases he : a.fails with
    | true => simpa using ih hrun' k
    | false =>
      simp only [Bool.false_eq_true, if_false]
      rw [reconcile_lookup _ _ _ hg.keys k]
      cases lastValue (getConfigurationsFromService a).1 k with
      | some v => rfl
      | none => exact ih hrun' k

/-- C6, as stated, fails: after a fetch of `[(a,1)]` and then a fetch of
`[(b,2)]`, both successful, the most recent successful fetch reports nothing
for `a`, yet `Get "a"` is `(a, 1)`. -/
theorem stale_key_outlives_latest_fetch :
    (run (Init budgetOne)
        [FetchEnv.decoded [⟨"a", "1"⟩], FetchEnv.decoded [⟨"b", "2"⟩]]).status =
        Status.running ∧
      Get (run (Init budgetOne)
        [FetchEnv.decoded [⟨"a", "1"⟩], FetchEnv.decoded [⟨"b", "2"⟩]]).configurationDtoList
        "a" = ⟨"a", "1"⟩ ∧
      ¬ GetReflectsMostRecentFetch budgetOne
        [FetchEnv.decoded [⟨"a", "1"⟩], FetchEnv.decoded [⟨"b", "2"⟩]] "a" := by
  refine ⟨by decide, by decide, ?_⟩
  intro h
  unfold GetReflectsMostRecentFetch at h
  rw [if_neg (by decide)] at h
  obtain ⟨l, v, hl, hv, _⟩ := h
  have hl' : l = [⟨"b", "2"⟩] := by
    have : (successes [FetchEnv.decoded [⟨"a", "1"⟩],
        FetchEnv.decoded [⟨"b", "2"⟩]]).getLast? = some [⟨"b", "2"⟩] := by decide
    rw [this] at hl
    exact (Option.some.inj hl).symm
  subst hl'
  have : lastValue [⟨"b", "2"⟩] "a" = none := by decide
  rw [this] at hv
  cases hv

/-- C6, amended: after any run that left the loader running (every answer was
polled), `Get k` is the zero value if no successful fetch so far contained `k`,
and otherwise is `(k, v)` with `v` the value reported for `k` by the most recent
successful fetch that contained `k`. -/
theorem get_reflects_last_report (s : Settings) (envs : List FetchEnv) (k : String)
    (hrun : (run (Init s) envs).status = Status.running) :
    (Get (run (Init s) envs).configurationDtoList k =
        match lastReported envs k with
        | some v => ⟨k, v⟩
        | none => ConfigurationDto.zero) ∧
      (lastReported envs k = none ↔ ∀ l ∈ successes envs, k ∉ keysOf l) := by
  refine ⟨?_, lastReported_eq_none envs k⟩
  have h := run_lookup s envs hrun k
  unfold Get
  rw [h]
  cases lastReported envs k <;> rfl

/-- C6 amended, at the run of the counterexample: `a` keeps the value of the
first fetch, the last one that contained it. -/
theorem get_reflects_last_report_witness :
    (run (Init budgetOne)
        [FetchEnv.decoded [⟨"a", "1"⟩], FetchEnv.decoded [⟨"b", "2"⟩]]).status =
        Status.running ∧
      lastReported [FetchEnv.decoded [⟨"a", "1"⟩], FetchEnv.decoded [⟨"b", "2"⟩]] "a" =
        some "1" ∧
      (Get (run (Init budgetOne)
          [FetchEnv.decoded [⟨"a", "1"⟩], FetchEnv.decoded [⟨"b", "2"⟩]]).configurationDtoList
          "a" =
        match lastReported [FetchEnv.decoded [⟨"a", "1"⟩], FetchEnv.decoded [⟨"b", "2"⟩]]
          "a" with
        | some v => ⟨"a", v⟩
        | none => ConfigurationDto.zero) :=
  ⟨by decide, by decide,
    (get_reflects_last_report budgetOne
      [FetchEnv.decoded [⟨"a", "1"⟩], FetchEnv.decoded [⟨"b", "2"⟩]] "a" (by decide)).1⟩

theorem sleeps_append (a b : List Event) : sleeps (a ++ b) = sleeps a ++ sleeps b := by
  induction a with
  | nil => rfl
  | cons e es ih => cases e <;> simp [sleeps, ih]

theorem reconcilePair_sleeps (f : Bool) (m : Cache) (config : configuration) :
    sleeps (reconcilePair f m config).2 = [] := by
  unfold reconcilePair
  cases h : m config.Key with
  | none => simp [sleeps]
  | some d =>
    by_cases hv : d.value = config.Value
    · simp [hv, sleeps]
    · cases f <;> simp [hv, sleeps]

theorem reconcile_sleeps (f : Bool) (l : List configuration) :
    ∀ m : Cache, sleeps (reconcile f m l).2 = [] := by
  induction l with
  | nil => intro m; rfl
  | cons x xs ih =>
    intro m
    simp only [reconcile, sleeps_append, reconcilePair_sleeps, ih, List.append_nil]

theorem clampWarning_sleeps (d : Duration) : sleeps (clampWarning d) = [] := by
  unfold clampWarning
  split <;> rfl

theorem run_steady_sleeps (envs : List FetchEnv) :
    ∀ st : LoaderState, st.status = Status.running → st.interval = ⟨[true], false⟩ →
      st.f = false →
      sleeps (run st envs).trace =
          sleeps st.trace ++ List.replicate envs.length st.s.RefreshIntervalTime ∧
        (run st envs).s = st.s := by
  induction envs with
  | nil => intro st _ _ _; simp [run]
  | cons env envs ih =>
    intro st hrun hint hf
    have hstep := iteration_steady st env hrun hint hf
    obtain ⟨h1, h2⟩ := ih (iteration st env) (by rw [hstep]; exact hrun)
      (by rw [hstep]; exact hint) (by rw [hstep]; exact hf)
    rw [run_cons, h1, h2, hstep]
    simp [sleeps_append, reconcile_sleeps, sleeps, List.replicate_succ]

/-- C7: from the first successful load on, every sleep of the loader, after a
success or a failure alike, lasts the clamped interval: 60 seconds when
`RefreshIntervalTime` is below one millisecond (zero and negative included),
`RefreshIntervalTime` itself otherwise.  The replacement is made in the
iteration of the first success, before that iteration sleeps. -/
theorem interval_clamped (s : Settings) (pre : List FetchEnv) (env : FetchEnv)
    (post : List FetchEnv)
    (hf : (run (Init s) pre).f = true)
    (hrun : (run (Init s) pre).status = Status.running)
    (hok : env.fails = false) :
    sleeps (run (Init s) (pre ++ env :: post)).trace =
        sleeps (run (Init s) pre).trace ++
          List.replicate (post.length + 1) (clampInterval s.RefreshIntervalTime) ∧
      (run (Init s) (pre ++ env :: post)).s.RefreshIntervalTime =
        clampInterval s.RefreshIntervalTime ∧
      (s.RefreshIntervalTime < 1000000 →
        clampInterval s.RefreshIntervalTime = 60000000000) ∧
      (1000000 ≤ s.RefreshIntervalTime →
        clampInterval s.RefreshIntervalTime = s.RefreshIntervalTime) := by
  have hg := good_run s pre
  have hint := hg.interval_ready hrun
  obtain ⟨_, hch, hR, _, _⟩ := hg.awaiting hf
  have hstep := iteration_first _ env hrun hint hf hch hok
  rw [run_append, run_cons]
  obtain ⟨h1, h2⟩ := run_steady_sleeps post (iteration (run (Init s) pre) env)
    (by rw [hstep]; exact hrun) (by rw [hstep]; exact hint) (by rw [hstep])
  refine ⟨?_, ?_, ?_, ?_⟩
  · rw [h1, hstep]
    simp only [sleeps_append, reconcile_sleeps, clampWarning_sleeps, hR]
    simp [sleeps, List.replicate_succ]
  · rw [h2, hstep]
    simp [hR]
  · intro h
    simp [clampInterval, Millisecond, Second, h]
  · intro h
    have : ¬ s.RefreshIntervalTime < 1000000 := not_lt.mpr h
    simp [clampInterval, Millisecond, this]

/-- C7 at a zero interval: one retried failure, the first success, then a
failure and a success; the sleeps are 5 s, then 60 s three times. -/
theorem interval_clamped_witness :
    (run (Init budgetOne) [FetchEnv.noResponse]).f = true ∧
      (run (Init budgetOne) [FetchEnv.noResponse]).status = Status.running ∧
      (FetchEnv.decoded [⟨"a", "1"⟩]).fails = false ∧
      sleeps (run (Init budgetOne) ([FetchEnv.noResponse] ++ FetchEnv.decoded [⟨"a", "1"⟩] ::
        [FetchEnv.noResponse, FetchEnv.decoded [⟨"a", "2"⟩]])).trace =
        sleeps (run (Init budgetOne) [FetchEnv.noResponse]).trace ++
          List.replicate ([FetchEnv.noResponse, FetchEnv.decoded [⟨"a", "2"⟩]].length + 1)
            (clampInterval budgetOne.RefreshIntervalTime) ∧
      clampInterval budgetOne.RefreshIntervalTime = 60000000000 :=
  ⟨by decide, by decide, by decide,
    (interval_clamped budgetOne [FetchEnv.noResponse] (FetchEnv.decoded [⟨"a", "1"⟩])
      [FetchEnv.noResponse, FetchEnv.decoded [⟨"a", "2"⟩]]
      (by decide) (by decide) (by decide)).1,
    by decide⟩

theorem reconcilePair_notification (m : Cache) (config : configuration) :
    (reconcilePair false m config).2 = notification m config := by
  unfold reconcilePair notification
  cases h : m config.Key with
  | none => rfl
  | some d =>
    by_cases hv : d.value = config.Value <;> simp [hv]

/-- C8: in an iteration after the first successful load, the log lines written
while the pair `config` of the fetched list is processed are exactly the
notification decided by the cache as the pairs before it left it: "new" when
the key is absent, "changed" when it is present with another value, none when
it is present with the same value. -/
theorem steady_pair_notification (s : Settings) (envs : List FetchEnv) (env : FetchEnv)
    (before : List configuration) (config : configuration) (after : List configuration)
    (hf : (run (Init s) envs).f = false)
    (hl : (getConfigurationsFromService env).1 = before ++ config :: after) :
    (iteration (run (Init s) envs) env).trace =
        (run (Init s) envs).trace ++
          (reconcile false (run (Init s) envs).configurationDtoList before).2 ++
          notification (reconcile false (run (Init s) envs).configurationDtoList before).1
            config ++
          (reconcile false
            (reconcilePair false
              (reconcile false (run (Init s) envs).configurationDtoList before).1 config).1
            after).2 ++
          [Event.sleep (run (Init s) envs).s.RefreshIntervalTime] ∧
      (∀ m : Cache, m config.Key = none →
        notification m config = [Event.newConfiguration config.Key config.Value]) ∧
      (∀ (m : Cache) (d : ConfigurationDto), m config.Key = some d → d.value ≠ config.Value →
        notification m config =
          [Event.changedConfiguration config.Key config.Value d.value]) ∧
      (∀ (m : Cache) (d : ConfigurationDto), m config.Key = some d → d.value = config.Value →
        notification m config = []) := by
  have hg := good_run s envs
  have hrun := steady_running s _ hg hf
  refine ⟨?_, fun m h => ?_, fun m d h hv => ?_, fun m d h hv => ?_⟩
  · rw [iteration_steady _ env hrun (hg.interval_ready hrun) hf, hl, reconcile_append]
    simp only [reconcile, reconcilePair_notification, List.append_assoc]
  · simp [notification, h]
  · simp [notification, h, hv]
  · simp [notification, h, hv]

/-- C8 at the example of the spec: the cache holds `a = 1`, the next fetch is
`[(a,2), (b,x)]`; processing `(a,2)` logs one change, processing `(b,x)` one
new key. -/
theorem steady_pair_notification_witness :
    (run (Init budgetOne) [FetchEnv.decoded [⟨"a", "1"⟩]]).f = false ∧
      (getConfigurationsFromService (FetchEnv.decoded [⟨"a", "2"⟩, ⟨"b", "x"⟩])).1 =
        [] ++ (⟨"a", "2"⟩ : configuration) :: [⟨"b", "x"⟩] ∧
      (iteration (run (Init budgetOne) [FetchEnv.decoded [⟨"a", "1"⟩]])
        (FetchEnv.decoded [⟨"a", "2"⟩, ⟨"b", "x"⟩])).trace =
        (run (Init budgetOne) [FetchEnv.decoded [⟨"a", "1"⟩]]).trace ++
          [Event.changedConfiguration "a" "2" "1", Event.newConfiguration "b" "x",
            Event.sleep 60000000000] :=
  ⟨by decide, by decide,
    (steady_pair_notification budgetOne [FetchEnv.decoded [⟨"a", "1"⟩]]
      (FetchEnv.decoded [⟨"a", "2"⟩, ⟨"b", "x"⟩]) [] ⟨"a", "2"⟩ [⟨"b", "x"⟩]
      (by decide) (by decide)).1.trans (by decide)⟩

theorem reconcilePair_first_changed (m : Cache) (config : configuration) :
    ∀ e ∈ (reconcilePair true m config).2, e.isChanged = false := by
  intro e he
  unfold reconcilePair at he
  cases h : m config.Key with
  | none =>
    simp [h] at he
    subst he
    rfl
  | some d =>
    by_cases hv : d.value = config.Value <;> simp [h, hv] at he

theorem reconcilePair_first_new (m : Cache) (config : configuration) (k : String) :
    (reconcilePair true m config).2.countP (Event.isNewFor k) =
      if m k = none ∧ k = config.Key then 1 else 0 := by
  unfold reconcilePair
  by_cases hk : k = config.Key
  · subst hk
    cases h : m config.Key with
    | none => simp [Event.isNewFor]
    | some d =>
      by_cases hv : d.value = config.Value <;> simp [hv]
  · have hk' : ¬ config.Key = k := fun h => hk h.symm
    cases h : m config.Key with
    | none => simp [Event.isNewFor, hk, hk']
    | some d =>
      by_cases hv : d.value = config.Value <;> simp [hv, hk]

theorem reconcile_first_changed (l : List configuration) :
    ∀ m : Cache, ∀ e ∈ (reconcile true m l).2, e.isChanged = false := by
  induction l with
  | nil => intro m e he; simp [reconcile] at he
  | cons x xs ih =>
    intro m e he
    simp only [reconcile, List.mem_append] at he
    rcases he with he | he
    · exact reconcilePair_first_changed m x e he
    · exact ih _ e he

theorem reconcile_first_new (l : List configuration) (k : String) :
    ∀ m : Cache, (reconcile true m l).2.countP (Event.isNewFor k) =
      if m k = none ∧ k ∈ keysOf l then 1 else 0 := by
  induction l with
  | nil => intro m; simp [reconcile, keysOf]
  | cons x xs ih =>
    intro m
    simp only [reconcile, List.countP_append, reconcilePair_first_new, ih]
    by_cases hk : k = x.Key
    · subst hk
      have h1 : (reconcilePair true m x).1 x.Key ≠ none := by
        rw [reconcilePair_key]; simp
      simp [h1, keysOf]
    · rw [reconcilePair_other true m x k hk]
      simp [hk, keysOf]

theorem clampWarning_changed (d : Duration) :
    ∀ e ∈ clampWarning d, e.isChanged = false := by
  intro e he
  unfold clampWarning at he
  split at he
  · simp at he
    subst he
    rfl
  · cases he

theorem clampWarning_new (d : Duration) (k : String) :
    (clampWarning d).countP (Event.isNewFor k) = 0 := by
  unfold clampWarning
  split <;> simp [Event.isNewFor]

theorem reconcile_get_key (f : Bool) (m : Cache) (l : List configuration)
    (hm : KeysAgree m) (k : String) (hk : k ∈ keysOf l) :
    ∃ v, lastValue l k = some v ∧ Get (reconcile f m l).1 k = ⟨k, v⟩ := by
  cases hv : lastValue l k with
  | none => exact absurd hk ((lastValue_eq_none l k).mp hv)
  | some v =>
    have h := reconcile_lookup f l m hm k
    rw [hv] at h
    exact ⟨v, rfl, by simp [Get, h]⟩

/-- C9: in the iteration of the first successful load, whatever list is
fetched, no "changed configuration" line is logged, exactly one "new
configuration" line is logged for each key of the list and none for any other
key, and each key of the list ends bound to the value of its last pair, so a
repeated key is overwritten silently. -/
theorem first_reconcile_notifications (s : Settings) (envs : List FetchEnv)
    (env : FetchEnv)
    (hf : (run (Init s) envs).f = true)
    (hrun : (run (Init s) envs).status = Status.running)
    (hok : env.fails = false) :
    ∃ tail, (iteration (run (Init s) envs) env).trace = (run (Init s) envs).trace ++ tail ∧
      (∀ e ∈ tail, e.isChanged = false) ∧
      (∀ k, tail.countP (Event.isNewFor k) =
        if k ∈ keysOf (getConfigurationsFromService env).1 then 1 else 0) ∧
      (∀ k ∈ keysOf (getConfigurationsFromService env).1,
        ∃ v, lastValue (getConfigurationsFromService env).1 k = some v ∧
          Get (iteration (run (Init s) envs) env).configurationDtoList k = ⟨k, v⟩) := by
  have hg := good_run s envs
  obtain ⟨hc, hch, _, _, _⟩ := hg.awaiting hf
  rw [iteration_first _ env hrun (hg.interval_ready hrun) hf hch hok, hc]
  refine ⟨(reconcile true Cache.empty (getConfigurationsFromService env).1).2 ++
      [Event.sendIsInitialized, Event.closeIsInitialized] ++
      clampWarning (run (Init s) envs).s.RefreshIntervalTime ++
      [Event.sleep (clampInterval (run (Init s) envs).s.RefreshIntervalTime)], ?_, ?_, ?_, ?_⟩
  · simp
  · intro e he
    simp only [List.mem_append] at he
    rcases he with ((he | he) | he) | he
    · exact reconcile_first_changed _ _ e he
    · simp at he
      rcases he with he | he <;> subst he <;> rfl
    · exact clampWarning_changed _ e he
    · simp at he
      subst he
      rfl
  · intro k
    simp only [List.countP_append, reconcile_first_new, clampWarning_new]
    simp [Event.isNewFor, Cache.empty]
  · intro k hk
    exact reconcile_get_key true Cache.empty _ keysAgree_empty k hk

/-- C9 at a list that repeats a key: `[(a,1), (a,2), (b,x)]` on first load. -/
theorem first_reconcile_notifications_witness :
    (run (Init budgetOne) [FetchEnv.noResponse]).f = true ∧
      (run (Init budgetOne) [FetchEnv.noResponse]).status = Status.running ∧
      (FetchEnv.decoded [⟨"a", "1"⟩, ⟨"a", "2"⟩, ⟨"b", "x"⟩]).fails = false ∧
      (iteration (run (Init budgetOne) [FetchEnv.noResponse])
        (FetchEnv.decoded [⟨"a", "1"⟩, ⟨"a", "2"⟩, ⟨"b", "x"⟩])).trace =
        (run (Init budgetOne) [FetchEnv.noResponse]).trace ++
          [Event.newConfiguration "a" "1", Event.newConfiguration "b" "x",
            Event.sendIsInitialized, Event.closeIsInitialized,
            Event.wrongInterval 60000000000, Event.sleep 60000000000] ∧
      ∃ tail, (iteration (run (Init budgetOne) [FetchEnv.noResponse])
          (FetchEnv.decoded [⟨"a", "1"⟩, ⟨"a", "2"⟩, ⟨"b", "x"⟩])).trace =
          (run (Init budgetOne) [FetchEnv.noResponse]).trace ++ tail ∧
        ∀ e ∈ tail, e.isChanged = false :=
  ⟨by decide, by decide, by decide, by decide,
    (first_reconcile_notifications budgetOne [FetchEnv.noResponse]
      (FetchEnv.decoded [⟨"a", "1"⟩, ⟨"a", "2"⟩, ⟨"b", "x"⟩])
      (by decide) (by decide) (by decide)).imp (fun _ h => ⟨h.1, h.2.1⟩)⟩

/-- C10: whatever the cache and the flag `f`, reconciling a pair that has just
been reconciled writes no log line and leaves the cache as the first
reconciliation left it; the same holds of the reconcile loop run twice on the
one-pair list. -/
theorem reconcile_twice_silent (f f' : Bool) (m : Cache) (config : configuration) :
    reconcilePair f' (reconcilePair f m config).1 config =
        ((reconcilePair f m config).1, []) ∧
      reconcile f' (reconcile f m [config]).1 [config] =
        ((reconcile f m [config]).1, []) := by
  have h : reconcilePair f' (reconcilePair f m config).1 config =
      ((reconcilePair f m config).1, []) := by
    have hk := reconcilePair_key f m config
    generalize (reconcilePair f m config).1 = m' at hk ⊢
    unfold reconcilePair
    rw [hk]
    simp
  refine ⟨h, ?_⟩
  simp only [reconcile, h, List.append_nil]

/-! ## Typed accessors and the gate -/

/-- C11: for every entry, `Int` halts the process when `strconv.Atoi` rejects
the value and returns the parsed number when it accepts it, `Bool` does the
same with `strconv.ParseBool`, so neither ever hands `IntDefault` or
`BoolDefault` back as a fallback; `String` returns the raw value.  The values
`"abc"` and `""` are rejected by both parsers. -/
theorem typed_accessors_fatal_on_reject (c : ConfigurationDto) :
    (Atoi c.value = none → c.Int = Call.exited) ∧
      (∀ n, Atoi c.value = some n → c.Int = Call.returned n) ∧
      (ParseBool c.value = none → c.Bool = Call.exited) ∧
      (∀ b, ParseBool c.value = some b → c.Bool = Call.returned b) ∧
      c.String = c.value ∧
      Atoi "abc" = none ∧ Atoi "" = none ∧
      ParseBool "abc" = none ∧ ParseBool "" = none := by
  refine ⟨fun h => ?_, fun n h => ?_, fun h => ?_, fun b h => ?_, rfl,
    by decide, by decide, by decide, by decide⟩
  · simp [ConfigurationDto.Int, h, logFatal, Call.andThen]
  · simp [ConfigurationDto.Int, h]
  · simp [ConfigurationDto.Bool, h, logFatal, Call.andThen]
  · simp [ConfigurationDto.Bool, h]

theorem reconcile_present (f : Bool) (m : Cache) (l : List configuration)
    (hm : KeysAgree m) (k : String) (hk : m k ≠ none) : (reconcile f m l).1 k ≠ none := by
  rw [reconcile_lookup f l m hm k]
  cases lastValue l k with
  | some v => simp
  | none => exact hk

theorem iteration_cache_cases (s : Settings) (st : LoaderState) (env : FetchEnv)
    (hg : Good s st) :
    (iteration st env).configurationDtoList = st.configurationDtoList ∨
      (iteration st env).configurationDtoList =
        (reconcile st.f st.configurationDtoList (getConfigurationsFromService env).1).1 := by
  by_cases hrun : st.status = Status.running
  · rw [iteration_cache s st env hg hrun]
    cases env.fails
    · right; rfl
    · left; rfl
  · left
    rw [iteration_halted st env hrun]

/-- C12: a poll, successful or failed, removes no key: a key bound before the
iteration is bound after it, and a key that the fetched list does not mention
keeps its entry as it was. -/
theorem loader_never_removes (s : Settings) (envs : List FetchEnv) (env : FetchEnv)
    (k : String) (hk : (run (Init s) envs).configurationDtoList k ≠ none) :
    (iteration (run (Init s) envs) env).configurationDtoList k ≠ none ∧
      (k ∉ keysOf (getConfigurationsFromService env).1 →
        (iteration (run (Init s) envs) env).configurationDtoList k =
          (run (Init s) envs).configurationDtoList k) := by
  have hg := good_run s envs
  rcases iteration_cache_cases s _ env hg with h | h
  · rw [h]
    exact ⟨hk, fun _ => rfl⟩
  · rw [h]
    refine ⟨reconcile_present _ _ _ hg.keys k hk, fun hn => ?_⟩
    rw [reconcile_lookup _ _ _ hg.keys k, (lastValue_eq_none _ k).mpr hn]

/-- C12 at a concrete run: `a` and `b` loaded, then a fetch that reports only
`a`, then a failed fetch; `b` is still bound. -/
theorem loader_never_removes_witness :
    (run (Init budgetOne)
        [FetchEnv.decoded [⟨"a", "1"⟩, ⟨"b", "x"⟩]]).configurationDtoList "b" ≠ none ∧
      (iteration (run (Init budgetOne) [FetchEnv.decoded [⟨"a", "1"⟩, ⟨"b", "x"⟩]])
        (FetchEnv.decoded [⟨"a", "2"⟩])).configurationDtoList "b" ≠ none :=
  ⟨by decide,
    (loader_never_removes budgetOne [FetchEnv.decoded [⟨"a", "1"⟩, ⟨"b", "x"⟩]]
      (FetchEnv.decoded [⟨"a", "2"⟩]) "b" (by decide)).1⟩

theorem recvs_closed (n : Nat) :
    ∀ c : Chan, c.closed = true →
      ∃ vs c', recvs n c = some (vs, c') ∧ vs.length = n ∧ c'.closed = true := by
  induction n with
  | zero => intro c hc; exact ⟨[], c, rfl, rfl, hc⟩
  | succ n ih =>
    intro c hc
    obtain ⟨buf, closed⟩ := c
    simp only at hc
    subst hc
    cases buf with
    | nil =>
      obtain ⟨vs, c', h, hl, hc'⟩ := ih ⟨[], true⟩ rfl
      exact ⟨false :: vs, c', by simp [recvs, Chan.recv, h], by simp [hl], hc'⟩
    | cons v rest =>
      obtain ⟨vs, c', h, hl, hc'⟩ := ih ⟨rest, true⟩ rfl
      exact ⟨v :: vs, c', by simp [recvs, Chan.recv, h], by simp [hl], hc'⟩

/-- C14: once the first load is done, `IsInitialized` holds the one buffered
`true` and is closed; on a closed channel any number of receives complete, none
blocks, and the channel stays closed; and whatever the waiters have left in the
channel, a later iteration of the loader leaves the channel as it is and
neither sends on it nor closes it. -/
theorem isInitialized_gate_never_rearmed (s : Settings) (envs : List FetchEnv) (env : FetchEnv)
    (n : Nat) (c : Chan)
    (hf : (run (Init s) envs).f = false) (hc : c.closed = true) :
    (run (Init s) envs).IsInitialized = ⟨[true], true⟩ ∧
      (∃ vs c', recvs n (run (Init s) envs).IsInitialized = some (vs, c') ∧
        vs.length = n ∧ c'.closed = true) ∧
      (∃ vs c', recvs n c = some (vs, c') ∧ vs.length = n ∧ c'.closed = true) ∧
      (iteration { run (Init s) envs with IsInitialized := c } env).IsInitialized = c ∧
      (iteration { run (Init s) envs with IsInitialized := c } env).status =
        Status.running ∧
      ∃ tail, (iteration { run (Init s) envs with IsInitialized := c } env).trace =
          (run (Init s) envs).trace ++ tail ∧
        ∀ e ∈ tail, e.isSignal = false := by
  have hg := good_run s envs
  have hrun := steady_running s _ hg hf
  have hint := hg.interval_ready hrun
  have hch := (hg.steady hf).1
  have hstep := iteration_steady { run (Init s) envs with IsInitialized := c } env
    hrun hint hf
  refine ⟨hch, recvs_closed n _ (by rw [hch]), recvs_closed n c hc, ?_, ?_, ?_⟩
  · rw [hstep]
  · rw [hstep]; exact hrun
  · rw [hstep]
    refine ⟨_, List.append_assoc _ _ _, ?_⟩
    intro e he
    rcases List.mem_append.mp he with he | he
    · exact reconcile_events false _ _ e he
    · simp at he
      subst he
      rfl

/-- C14 at a concrete run: after the first load three waiters receive, then a
poll follows. -/
theorem isInitialized_gate_never_rearmed_witness :
    (run (Init budgetOne) [FetchEnv.decoded [⟨"a", "1"⟩]]).f = false ∧
      (⟨[], true⟩ : Chan).closed = true ∧
      recvs 3 (run (Init budgetOne) [FetchEnv.decoded [⟨"a", "1"⟩]]).IsInitialized =
        some ([true, false, false], ⟨[], true⟩) ∧
      (iteration { run (Init budgetOne) [FetchEnv.decoded [⟨"a", "1"⟩]] with
          IsInitialized := ⟨[], true⟩ } FetchEnv.noResponse).IsInitialized = ⟨[], true⟩ :=
  ⟨by decide, by decide, by decide,
    (isInitialized_gate_never_rearmed budgetOne [FetchEnv.decoded [⟨"a", "1"⟩]] FetchEnv.noResponse 3
      ⟨[], true⟩ (by decide) (by decide)).2.2.2.1⟩

/-- C15: in every cache the loader reaches, each entry carries the key it is
stored under; and for any cache, reconciling a pair whose key is already bound
leaves that key bound to an entry with the same key field, the value being the
pair's, and leaves every other key as it was. -/
theorem entry_key_is_map_key (s : Settings) (envs : List FetchEnv) :
    (∀ k d, (run (Init s) envs).configurationDtoList k = some d → d.key = k) ∧
      (∀ k d, (run (Init s) envs).configurationDtoList k = some d →
        (Get (run (Init s) envs).configurationDtoList k).key = k) ∧
      (∀ (f : Bool) (m : Cache) (config : configuration) (d : ConfigurationDto),
        m config.Key = some d →
          (reconcilePair f m config).1 config.Key = some ⟨d.key, config.Value⟩ ∧
            ∀ k, k ≠ config.Key → (reconcilePair f m config).1 k = m k) := by
  refine ⟨loader_keysAgree s envs, fun k d h => ?_, fun f m config d h => ⟨?_, fun k hk => ?_⟩⟩
  · simp [Get, h, loader_keysAgree s envs k d h]
  · rw [reconcilePair_key, h]
  · exact reconcilePair_other f m config k hk

/-- C16: whenever `getConfigurationsFromService` returns a non-nil error, the
list it returns is empty, whichever of the three error returns is taken, so the
reconcile loop over it changes nothing and logs nothing. -/
theorem failed_fetch_carries_no_pairs (env : FetchEnv)
    (herr : (getConfigurationsFromService env).2 ≠ none) :
    (getConfigurationsFromService env).1 = [] ∧
      ∀ (f : Bool) (m : Cache),
        reconcile f m (getConfigurationsFromService env).1 = (m, []) := by
  have h : (getConfigurationsFromService env).1 = [] := by
    cases env <;> simp_all [getConfigurationsFromService]
  refine ⟨h, fun f m => ?_⟩
  rw [h]
  rfl

/-- C16 at a decode failure that had already filled one pair. -/
theorem failed_fetch_carries_no_pairs_witness :
    (getConfigurationsFromService (FetchEnv.decodeError [⟨"a", "9"⟩])).2 ≠ none ∧
      (getConfigurationsFromService (FetchEnv.decodeError [⟨"a", "9"⟩])).1 = [] :=
  ⟨by decide, (failed_fetch_carries_no_pairs (FetchEnv.decodeError [⟨"a", "9"⟩])
    (by decide)).1⟩

/-- C17: at the head of every iteration `init` is the negation of `f`.  So in
the branch guarded by `err != nil && f` the flag `init` is false: the test
`counter < FirstTimeLoadRetryCount && !init` is the test on the counter alone,
the test `if init` fails, and the iteration ends in the 5-second retry or in
`log.Fatal`, never in the sleep of `RefreshIntervalTime` of the `if init`
branch. -/
theorem init_is_not_f (s : Settings) (envs : List FetchEnv) (env : FetchEnv) :
    (run (Init s) envs).init = !(run (Init s) envs).f ∧
      ((run (Init s) envs).status = Status.running → (run (Init s) envs).f = true →
        env.fails = true →
        (run (Init s) envs).init = false ∧
          (decide ((run (Init s) envs).counter <
              (run (Init s) envs).s.FirstTimeLoadRetryCount) &&
            !(run (Init s) envs).init) =
            decide ((run (Init s) envs).counter <
              (run (Init s) envs).s.FirstTimeLoadRetryCount) ∧
          ((iteration (run (Init s) envs) env).trace =
              (run (Init s) envs).trace ++
                [Event.didntUpdate (run (Init s) envs).counter,
                  Event.sleep defaultRequestDelayInSecond] ∨
            (iteration (run (Init s) envs) env).trace =
              (run (Init s) envs).trace ++
                [Event.didntUpdate (run (Init s) envs).counter, Event.fatal])) := by
  have hg := good_run s envs
  refine ⟨hg.init_eq, fun hrun hf herr => ?_⟩
  have hinit : (run (Init s) envs).init = false := by rw [hg.init_eq, hf]; rfl
  have hint := hg.interval_ready hrun
  refine ⟨hinit, by simp [hinit], ?_⟩
  by_cases hlt : (run (Init s) envs).counter < (run (Init s) envs).s.FirstTimeLoadRetryCount
  · left
    rw [iteration_retry _ env hrun hint hf hinit herr hlt]
  · right
    rw [iteration_fatal _ env hrun hint hf hinit herr hlt]

/-- C18: for a key that is not in the cache `Get` returns the zero-value entry,
empty key and empty value; its `String` is the empty string, and its `Int` and
its `Bool` halt the process, the empty string being rejected by `strconv.Atoi`
and by `strconv.ParseBool`. -/
theorem get_missing_key (m : Cache) (k : String) (hk : m k = none) :
    Get m k = ⟨"", ""⟩ ∧
      (Get m k).String = "" ∧
      (Get m k).Int = Call.exited ∧
      (Get m k).Bool = Call.exited ∧
      Atoi "" = none ∧ ParseBool "" = none := by
  have h : Get m k = ⟨"", ""⟩ := by simp [Get, hk, ConfigurationDto.zero]
  rw [h]
  exact ⟨rfl, rfl, by decide, by decide, by decide, by decide⟩

/-- C18 at the key `b` of a cache that holds only `a`. -/
theorem get_missing_key_witness :
    cacheA1 "b" = none ∧ (Get cacheA1 "b").Int = Call.exited ∧
      (Get cacheA1 "b").Bool = Call.exited :=
  ⟨by decide, (get_missing_key cacheA1 "b" (by decide)).2.2.1,
    (get_missing_key cacheA1 "b" (by decide)).2.2.2.1⟩

end GoClient
